import Mathlib

/-!
Verification of the Hades GBA emulator core against its specification.

The definitions below are a shallow embedding of the C sources:
* `source/core/bus.c`   — the memory bus (`Core`, `core_bus_read8` …  `core_bus_write32`);
* `source/gba/gba.c`    — the run loop (`Gba`, `gba_reset`, message draining).

C `uint8_t` bytes are modelled as `Fin 256`, machine integers as `Nat` with
explicit truncation (`% 2 ^ 32` …) exactly where the C code truncates.
A call to `panic` (which aborts the process) is modelled as the `none` case of
an `Option` result.  `size_t`/`uint32_t` subtractions such as
`memory_size - 1` are modelled with `Nat` subtraction, which agrees with the C
code whenever `memory_size` is at least the access width (the underflowing
cases are C undefined behaviour on an empty memory).
-/

set_option maxHeartbeats 1000000

namespace Hades

/-- A byte, as stored in the emulated flat memory (C `uint8_t`). -/
abbrev Byte := Fin 256

/-- Build a byte from a natural number, truncating like a C cast to `uint8_t`. -/
def byteOf (n : Nat) : Byte := ⟨n % 256, by omega⟩

/-- Shallow embedding of `struct core` as used by `source/core/bus.c`:
a flat byte memory of `memory_size` bytes plus the `big_endian` flag. -/
structure Core where
  memory : Nat → Byte
  memory_size : Nat
  big_endian : Bool

/-- The 16-bit load `be16toh/le16toh(*(uint16_t *)(core->memory + addr))`:
reads the bytes at `addr`, `addr + 1` and assembles them according to the
core's `big_endian` flag. -/
def core_load16 (core : Core) (addr : Nat) : Nat :=
  if core.big_endian then
    256 * (core.memory addr).val + (core.memory (addr + 1)).val
  else
    (core.memory addr).val + 256 * (core.memory (addr + 1)).val

/-- The 32-bit load `be32toh/le32toh(*(uint32_t *)(core->memory + addr))`. -/
def core_load32 (core : Core) (addr : Nat) : Nat :=
  if core.big_endian then
    16777216 * (core.memory addr).val + 65536 * (core.memory (addr + 1)).val +
      256 * (core.memory (addr + 2)).val + (core.memory (addr + 3)).val
  else
    (core.memory addr).val + 256 * (core.memory (addr + 1)).val +
      65536 * (core.memory (addr + 2)).val + 16777216 * (core.memory (addr + 3)).val

/-- The 16-bit store `*(uint16_t *)(core->memory + addr) = htobe16/htole16(val)`:
writes the two bytes of `val` at `addr`, `addr + 1` in the order selected by
the `big_endian` flag.  Note the C code stores at the given (possibly
unaligned) address. -/
def core_store16 (big : Bool) (mem : Nat → Byte) (addr val : Nat) : Nat → Byte :=
  fun i =>
    if i = addr then (if big then byteOf (val / 256) else byteOf val)
    else if i = addr + 1 then (if big then byteOf val else byteOf (val / 256))
    else mem i

/-- The 32-bit store `*(uint32_t *)(core->memory + addr) = htobe32/htole32(val)`. -/
def core_store32 (big : Bool) (mem : Nat → Byte) (addr val : Nat) : Nat → Byte :=
  fun i =>
    if i = addr then (if big then byteOf (val / 16777216) else byteOf val)
    else if i = addr + 1 then (if big then byteOf (val / 65536) else byteOf (val / 256))
    else if i = addr + 2 then (if big then byteOf (val / 256) else byteOf (val / 65536))
    else if i = addr + 3 then (if big then byteOf val else byteOf (val / 16777216))
    else mem i

/-- `core_bus_read8` (bus.c:17-27): returns the byte at `addr`, or panics
(`none`) when `addr >= core->memory_size`. -/
def core_bus_read8 (core : Core) (addr : Nat) : Option Nat :=
  if addr ≥ core.memory_size then
    none
  else
    some (core.memory addr).val

/-- `core_bus_write8` (bus.c:32-43): stores the byte `val` at `addr`, or
panics (`none`) when `addr >= core->memory_size`. -/
def core_bus_write8 (core : Core) (addr val : Nat) : Option Core :=
  if addr ≥ core.memory_size then
    none
  else
    some { core with memory := fun i => if i = addr then byteOf val else core.memory i }

/-- `core_bus_read16` (bus.c:51-74): `rotate = (addr % 2) << 3`, then
`addr &= 0xFFFFFFFE`; panics when `addr >= memory_size - 1`; otherwise loads
the halfword and returns `(value >> rotate) | (value << (32 - rotate))` as a
`uint32_t`.  (When `rotate` is 0 the C shift by 32 is undefined behaviour; the
masked-shift and modulo-`2^32` readings coincide on the result value, and we
model the latter.) -/
def core_bus_read16 (core : Core) (addr : Nat) : Option Nat :=
  if addr &&& 0xFFFFFFFE ≥ core.memory_size - 1 then
    none
  else
    some ((core_load16 core (addr &&& 0xFFFFFFFE) >>> ((addr % 2) <<< 3) |||
           core_load16 core (addr &&& 0xFFFFFFFE) <<< (32 - (addr % 2) <<< 3)) % 2 ^ 32)

/-- `core_bus_write16` (bus.c:79-94): panics when `addr >= memory_size - 1`;
otherwise stores the halfword at `addr` (the C code does not align `addr`). -/
def core_bus_write16 (core : Core) (addr val : Nat) : Option Core :=
  if addr ≥ core.memory_size - 1 then
    none
  else
    some { core with memory := core_store16 core.big_endian core.memory addr val }

/-- `core_bus_read32` (bus.c:99-122): `rotate = (addr % 4) << 3`, then
`addr &= 0xFFFFFFFE` (note: the code masks with `~1`, not `~3`); panics when
`addr >= memory_size - 3`; otherwise loads the word and returns
`(value >> rotate) | (value << (32 - rotate))` as a `uint32_t`. -/
def core_bus_read32 (core : Core) (addr : Nat) : Option Nat :=
  if addr &&& 0xFFFFFFFE ≥ core.memory_size - 3 then
    none
  else
    some ((core_load32 core (addr &&& 0xFFFFFFFE) >>> ((addr % 4) <<< 3) |||
           core_load32 core (addr &&& 0xFFFFFFFE) <<< (32 - (addr % 4) <<< 3)) % 2 ^ 32)

/-- `core_bus_write32` (bus.c:127-142): panics when `addr >= memory_size - 3`;
otherwise stores the word at `addr` (the C code does not align `addr`). -/
def core_bus_write32 (core : Core) (addr val : Nat) : Option Core :=
  if addr ≥ core.memory_size - 3 then
    none
  else
    some { core with memory := core_store32 core.big_endian core.memory addr val }

/-- Rotate a 32-bit value right by `r` bits — the mathematical specification of
rotation, phrased with division and remainder (independent of the shift/or
expression used by the C code). -/
def rotr32 (v r : Nat) : Nat :=
  v / 2 ^ (r % 32) + v % 2 ^ (r % 32) * 2 ^ (32 - r % 32)

/-- Concrete byte memory backed by a list (zero beyond the end). -/
def memOfList (l : List Nat) : Nat → Byte := fun i => byteOf (l.getD i 0)

/-- Masking a 32-bit value with `0xFFFFFFFE` clears its lowest bit. -/
theorem and_fffffffe (a : Nat) (h : a < 2 ^ 32) : a &&& 0xFFFFFFFE = 2 * (a / 2) := by
  have h2 : 2 * (a / 2) = a >>> 1 <<< 1 := by
    rw [Nat.shiftRight_eq_div_pow, Nat.shiftLeft_eq]
    ring
  rw [h2]
  apply Nat.eq_of_testBit_eq
  intro i
  rw [Nat.testBit_and, Nat.testBit_shiftLeft, Nat.testBit_shiftRight]
  rcases Nat.eq_zero_or_pos i with h0 | h0
  · subst h0
    have hmask : Nat.testBit 0xFFFFFFFE 0 = false := by decide
    simp [hmask]
  · by_cases h32 : i < 32
    · have hmask : Nat.testBit 0xFFFFFFFE i = true := by
        interval_cases i <;> decide
      have hi : 1 + (i - 1) = i := by omega
      have hge : i ≥ 1 := h0
      simp [hmask, hi, hge]
    · have hpow : (2 : Nat) ^ 32 ≤ 2 ^ i := Nat.pow_le_pow_right (by norm_num) (by omega)
      have hpow1 : (2 : Nat) ^ 32 ≤ 2 ^ (1 + (i - 1)) :=
        Nat.pow_le_pow_right (by norm_num) (by omega)
      have hmask : Nat.testBit 0xFFFFFFFE i = false :=
        Nat.testBit_eq_false_of_lt
          (lt_of_lt_of_le (show (0xFFFFFFFE : Nat) < 2 ^ 32 by norm_num) hpow)
      have ha : a.testBit (1 + (i - 1)) = false :=
        Nat.testBit_eq_false_of_lt (lt_of_lt_of_le h hpow1)
      simp [hmask, ha]

/-- Bitwise or of a shifted value with a value below the shift amount is
addition. -/
theorem or_add_of_lt_shift {k b : Nat} (hb : b < 2 ^ k) (a : Nat) :
    a <<< k ||| b = a <<< k + b := by
  rw [Nat.shiftLeft_eq, Nat.mul_comm]
  exact (Nat.mul_add_lt_is_or hb a).symm

/-- The C rotate expression at rotate amount 0 is the identity on 32-bit
values. -/
theorem rot_expr_zero (v : Nat) (hv : v < 2 ^ 32) :
    (v >>> 0 ||| v <<< 32) % 2 ^ 32 = v := by
  rw [Nat.shiftRight_zero, Nat.lor_comm, or_add_of_lt_shift hv, Nat.shiftLeft_eq]
  have h32 : (2 : Nat) ^ 32 = 4294967296 := by norm_num
  rw [h32] at hv ⊢
  omega

/-- The C rotate expression at rotate amount 8 is rotation right by 8 bits,
for values fitting in 16 bits. -/
theorem rot_expr_eight (v : Nat) (hv : v < 2 ^ 16) :
    (v >>> 8 ||| v <<< 24) % 2 ^ 32 = rotr32 v 8 := by
  have e8 : (2 : Nat) ^ 8 = 256 := by norm_num
  have e16 : (2 : Nat) ^ 16 = 65536 := by norm_num
  have e24 : (2 : Nat) ^ 24 = 16777216 := by norm_num
  have e32 : (2 : Nat) ^ 32 = 4294967296 := by norm_num
  have hb : v >>> 8 < 2 ^ 24 := by
    rw [Nat.shiftRight_eq_div_pow, e8, e24]
    rw [e16] at hv
    omega
  rw [Nat.lor_comm, or_add_of_lt_shift hb, Nat.shiftLeft_eq, Nat.shiftRight_eq_div_pow]
  simp only [rotr32]
  norm_num
  rw [e16] at hv
  omega

/-- The 16-bit load always fits in 16 bits. -/
theorem core_load16_lt (core : Core) (addr : Nat) : core_load16 core addr < 2 ^ 16 := by
  have h1 := (core.memory addr).isLt
  have h2 := (core.memory (addr + 1)).isLt
  have e16 : (2 : Nat) ^ 16 = 65536 := by norm_num
  unfold core_load16
  rw [e16]
  split <;> omega

/-- Example core for the C1 evaluation: eight little-endian bytes. -/
def coreC1 : Core :=
  { memory := memOfList [0x00, 0x11, 0x22, 0x33, 0x44, 0x55, 0x66, 0x77]
    memory_size := 8
    big_endian := false }

/-- C1: evaluation of the code at the failing input.  At address 2 the code
reads the word at `2 & ~1 = 2` (not at `2 & ~3 = 0`) and rotates it, giving
`0x33225544`, whereas `ror(read32(2 & ~3), (2 & 3) * 8) = ror(0x33221100, 16)
= 0x11003322`: the claimed identity `read32(a) == ror(read32(a & ~3),
(a & 3) * 8)` fails at `a = 2`. -/
theorem c1_read32_unaligned_eval :
    core_bus_read32 coreC1 2 = some 0x33225544 ∧
    (core_bus_read32 coreC1 0).map (fun v => rotr32 v 16) = some 0x11003322 ∧
    (0x33225544 : Nat) ≠ 0x11003322 :=
  ⟨by decide, by decide, by decide⟩

/-- Example core for the C2 theorems: four mapped bytes. -/
def coreC2 : Core :=
  { memory := memOfList [0, 0, 0, 0], memory_size := 4, big_endian := false }

/-- C2 counterexample: at address 4 (= `memory_size`) the byte read does not
return an open-bus value and the byte write is not dropped — both panic
(modelled as `none`), terminating emulation. -/
theorem c2_counterexample :
    core_bus_read8 coreC2 4 = none ∧ core_bus_write8 coreC2 4 7 = none :=
  ⟨by decide, rfl⟩

/-- C2 (amended): for every core and every 32-bit address at or beyond the
mapped memory, all six bus accessors panic (terminate emulation, `none`):
reads do not return open-bus and writes are not dropped.  (`memory_size ≥ 4`
keeps the C `size_t` subtractions `memory_size - 1` and `memory_size - 3`
meaningful.) -/
theorem c2_out_of_range_panics (core : Core) (addr val : Nat)
    (h32 : addr < 2 ^ 32) (hsz : 4 ≤ core.memory_size)
    (hout : core.memory_size ≤ addr) :
    core_bus_read8 core addr = none ∧
    core_bus_write8 core addr val = none ∧
    core_bus_read16 core addr = none ∧
    core_bus_write16 core addr val = none ∧
    core_bus_read32 core addr = none ∧
    core_bus_write32 core addr val = none := by
  have hand := and_fffffffe addr h32
  have hhalf : addr % 2 ≤ 1 := by omega
  refine ⟨?_, ?_, ?_, ?_, ?_, ?_⟩
  · unfold core_bus_read8
    rw [if_pos (by omega)]
  · unfold core_bus_write8
    rw [if_pos (by omega)]
  · unfold core_bus_read16
    rw [hand, if_pos (by omega)]
  · unfold core_bus_write16
    rw [if_pos (by omega)]
  · unfold core_bus_read32
    rw [hand, if_pos (by omega)]
  · unfold core_bus_write32
    rw [if_pos (by omega)]

/-- Witness for the amended C2 at the concrete out-of-range address 5. -/
theorem c2_witness :
    core_bus_read8 coreC2 5 = none ∧
    core_bus_write8 coreC2 5 0 = none ∧
    core_bus_read16 coreC2 5 = none ∧
    core_bus_write16 coreC2 5 0 = none ∧
    core_bus_read32 coreC2 5 = none ∧
    core_bus_write32 coreC2 5 0 = none :=
  c2_out_of_range_panics coreC2 5 0 (by decide) (by decide) (by decide)

/-- Example core for the C3 theorems: four zero bytes. -/
def coreC3 : Core :=
  { memory := memOfList [0, 0, 0, 0], memory_size := 4, big_endian := false }

/-- C3 counterexample: a 16-bit write of `0xABCD` at the odd address 1 stores
the bytes at offsets 1 and 2 and leaves offset 0 untouched; aligning down (as
the claim states) would instead store them at offsets 0 and 1.  Hence the
write at 1 is not the write at `1 & ~1 = 0`. -/
theorem c3_counterexample :
    (core_bus_write16 coreC3 1 0xABCD).map
        (fun c => ((c.memory 0).val, (c.memory 1).val, (c.memory 2).val)) =
      some (0x00, 0xCD, 0xAB) ∧
    (core_bus_write16 coreC3 0 0xABCD).map
        (fun c => ((c.memory 0).val, (c.memory 1).val, (c.memory 2).val)) =
      some (0xCD, 0xAB, 0x00) ∧
    core_bus_write16 coreC3 1 0xABCD ≠ core_bus_write16 coreC3 0 0xABCD :=
  ⟨by decide, by decide,
    fun h =>
      absurd (congrArg (fun o => Option.map (fun c => (c.memory 0).val) o) h) (by decide)⟩

/-- C3 (amended): an in-range unaligned 16-bit (resp. 32-bit) write stores the
value's bytes at the given unaligned address `a` itself — bytes `a`, `a + 1`
(resp. `a` … `a + 3`) in the order given by the endianness flag — leaving all
other bytes (in particular the aligned-down target `a & ~1`, resp. `a & ~3`)
unchanged: the write is not aligned down. -/
theorem c3_unaligned_write_not_aligned (core : Core) (a v : Nat) :
    (a % 2 = 1 → a + 1 < core.memory_size →
      ∃ c', core_bus_write16 core a v = some c' ∧
        c'.memory a = (if core.big_endian then byteOf (v / 256) else byteOf v) ∧
        c'.memory (a + 1) = (if core.big_endian then byteOf v else byteOf (v / 256)) ∧
        ∀ i, i ≠ a → i ≠ a + 1 → c'.memory i = core.memory i) ∧
    (a % 4 ≠ 0 → a + 3 < core.memory_size →
      ∃ c', core_bus_write32 core a v = some c' ∧
        c'.memory a = (if core.big_endian then byteOf (v / 16777216) else byteOf v) ∧
        c'.memory (a + 1) = (if core.big_endian then byteOf (v / 65536) else byteOf (v / 256)) ∧
        c'.memory (a + 2) = (if core.big_endian then byteOf (v / 256) else byteOf (v / 65536)) ∧
        c'.memory (a + 3) = (if core.big_endian then byteOf v else byteOf (v / 16777216)) ∧
        ∀ i, i ≠ a → i ≠ a + 1 → i ≠ a + 2 → i ≠ a + 3 → c'.memory i = core.memory i) := by
  constructor
  · intro _ hin
    refine ⟨{ core with memory := core_store16 core.big_endian core.memory a v },
      ?_, ?_, ?_, ?_⟩
    · unfold core_bus_write16
      rw [if_neg (by omega)]
    · show core_store16 core.big_endian core.memory a v a = _
      simp [core_store16]
    · show core_store16 core.big_endian core.memory a v (a + 1) = _
      simp [core_store16]
    · intro i hi1 hi2
      show core_store16 core.big_endian core.memory a v i = _
      simp [core_store16, hi1, hi2]
  · intro _ hin
    refine ⟨{ core with memory := core_store32 core.big_endian core.memory a v },
      ?_, ?_, ?_, ?_, ?_, ?_⟩
    · unfold core_bus_write32
      rw [if_neg (by omega)]
    · show core_store32 core.big_endian core.memory a v a = _
      simp [core_store32]
    · show core_store32 core.big_endian core.memory a v (a + 1) = _
      simp [core_store32]
    · show core_store32 core.big_endian core.memory a v (a + 2) = _
      simp [core_store32]
    · show core_store32 core.big_endian core.memory a v (a + 3) = _
      simp [core_store32]
    · intro i hi1 hi2 hi3 hi4
      show core_store32 core.big_endian core.memory a v i = _
      simp [core_store32, hi1, hi2, hi3, hi4]

/-- Witness for the amended C3 at the odd address 1 with value `0xABCD`. -/
theorem c3_witness :
    ∃ c', core_bus_write16 coreC3 1 0xABCD = some c' ∧
      c'.memory 1 = (if coreC3.big_endian then byteOf (0xABCD / 256) else byteOf 0xABCD) ∧
      c'.memory (1 + 1) =
        (if coreC3.big_endian then byteOf 0xABCD else byteOf (0xABCD / 256)) ∧
      ∀ i, i ≠ 1 → i ≠ 1 + 1 → c'.memory i = coreC3.memory i :=
  (c3_unaligned_write_not_aligned coreC3 1 0xABCD).1 (by decide) (by decide)

/-- C4: a 16-bit read from an odd in-range address returns the halfword at the
aligned address `a & ~1`, zero-extended and rotated right by 8 bits within a
32-bit word; from an even in-range address, the stored halfword zero-extended
and unrotated. -/
theorem c4_read16_rotate (core : Core) (a : Nat) (h32 : a < 2 ^ 32) :
    (a % 2 = 1 → a < core.memory_size →
      core_bus_read16 core a = some (rotr32 (core_load16 core (a &&& 0xFFFFFFFE)) 8)) ∧
    (a % 2 = 0 → a + 1 < core.memory_size →
      core_bus_read16 core a = some (core_load16 core a)) := by
  have hand := and_fffffffe a h32
  constructor
  · intro hodd hin
    unfold core_bus_read16
    rw [hand, if_neg (by omega), hodd]
    have h8 : (1 : Nat) <<< 3 = 8 := by decide
    have h24 : 32 - (8 : Nat) = 24 := by decide
    rw [h8, h24]
    exact congrArg some (rot_expr_eight _ (core_load16_lt _ _))
  · intro heven hin
    unfold core_bus_read16
    have haa : 2 * (a / 2) = a := by omega
    rw [hand, haa, if_neg (by omega), heven]
    have h0 : (0 : Nat) <<< 3 = 0 := by decide
    rw [h0, Nat.sub_zero]
    exact congrArg some (rot_expr_zero _ (lt_trans (core_load16_lt _ _) (by norm_num)))

/-- Example core for the C4 witness. -/
def coreC4 : Core :=
  { memory := memOfList [0x11, 0x22, 0x33, 0x44], memory_size := 4, big_endian := false }

/-- Witness for C4 at the odd address 1. -/
theorem c4_witness :
    core_bus_read16 coreC4 1 = some (rotr32 (core_load16 coreC4 (1 &&& 0xFFFFFFFE)) 8) :=
  (c4_read16_rotate coreC4 1 (by decide)).1 (by decide) (by decide)

/-! ## The run loop (`source/gba/gba.c`) -/

/-- The ten GBA keys (`enum keys`). -/
inductive Key
  | a | b | l | r | up | down | left | right | start | select
deriving DecidableEq

/-- Backup storage types, including the request value `BACKUP_AUTO_DETECT`. -/
inductive BackupKind
  | auto_detect | none | eeprom_4k | eeprom_64k | sram | flash64 | flash128
deriving DecidableEq

/-- Modelled from the spec: `backup_storage_sizes` (defined outside `src`) —
the size in bytes of each backup type: SRAM 32 KiB, Flash 64/128 KiB,
EEPROM 512 B / 8 KiB. -/
def backup_storage_sizes : BackupKind → Nat
  | .auto_detect => 0
  | .none => 0
  | .eeprom_4k => 512
  | .eeprom_64k => 8192
  | .sram => 32768
  | .flash64 => 65536
  | .flash128 => 131072

/-- The RTC device states carried by `MESSAGE_RTC`. -/
inductive DeviceState
  | auto_detect | enabled | disabled
deriving DecidableEq

/-- The emulator run state (`GBA_STATE_PAUSE` / `GBA_STATE_RUN`). -/
inductive GbaState
  | pause | run
deriving DecidableEq

/-- Where the backup storage type came from. -/
inductive BackupSource
  | auto | manual
deriving DecidableEq

/-- The ten active-low key bits of KEYINPUT (`gba->io.keyinput`). -/
structure Keyinput where
  a : Bool
  b : Bool
  l : Bool
  r : Bool
  up : Bool
  down : Bool
  left : Bool
  right : Bool
  start : Bool
  select : Bool
deriving DecidableEq

/-- The key bit of KEYINPUT selected by a key. -/
def keyBit (ki : Keyinput) : Key → Bool
  | .a => ki.a
  | .b => ki.b
  | .l => ki.l
  | .r => ki.r
  | .up => ki.up
  | .down => ki.down
  | .left => ki.left
  | .right => ki.right
  | .start => ki.start
  | .select => ki.select

/-- The I/O state the run-loop commands touch: KEYINPUT plus the keypad
interrupt line recomputed by `io_scan_keypad_irq`. -/
structure IoRegs where
  keyinput : Keyinput
  keypad_irq_line : Bool
deriving DecidableEq

/-- The memory state touched by `gba_run`: the BIOS and ROM buffers and the
backup storage. -/
structure GbaMemory where
  bios : Nat → Byte
  rom : Nat → Byte
  rom_size : Nat
  backup_storage_type : BackupKind
  backup_storage_source : BackupSource
  backup_storage_data : Nat → Byte

/-- Shallow embedding of the `struct gba` fields read or written by
`gba_run` and `gba_reset`.  The scheduler is represented by its cycle
counter (see `sched_run_for`). -/
structure Gba where
  started : Bool
  state : GbaState
  speed : Nat
  color_correction : Bool
  resample_frequency : Nat
  rtc_enabled : Bool
  rtc_auto_detect : Bool
  memory : GbaMemory
  ioregs : IoRegs
  scheduler_cycles : Nat

/-- Modelled from the spec: the BIOS region is 16 KiB (`BIOS image: exactly
16,384 bytes`), and region offsets are masked to the region size, so the
mirroring mask `BIOS_MASK` is `BIOS_SIZE - 1 = 16383`.  Both constants are
defined in a header that is not under `src`. -/
def BIOS_SIZE : Nat := 16384

/-- Modelled from the spec: the BIOS mirroring mask, `BIOS_SIZE - 1`. -/
def BIOS_MASK : Nat := BIOS_SIZE - 1

/-- Modelled from the spec: cartridge ROM is up to 32 MiB. -/
def CART_SIZE : Nat := 33554432

/-- Modelled from the spec: one frame is `CYCLES_PER_FRAME ≈ 280,896`
cycles. -/
def CYCLES_PER_FRAME : Nat := 280896

/-- Modelled from the spec: `sched_run_for(gba, n)` runs the scheduler for a
budget of `n` cycles, advancing the cycle counter by exactly `n` (spec §4.2
and §8: `run_for(n)` advances `cycles` by exactly `n` when no event
reschedules the counter).  The events themselves are outside the modelled
state. -/
def sched_run_for (g : Gba) (n : Nat) : Gba :=
  { g with scheduler_cycles := g.scheduler_cycles + n }

/-- Modelled from the spec: `sched_cleanup` discards the outstanding
scheduler events, which are outside the modelled state. -/
def sched_cleanup (g : Gba) : Gba := g

/-- Modelled from the spec: `sched_init` restarts the scheduler with a fresh
cycle counter. -/
def sched_init (g : Gba) : Gba := { g with scheduler_cycles := 0 }

/-- Modelled from the spec: `mem_reset` resets the memory; the BIOS/ROM
buffers are reset to zero on reset (spec §3, Lifecycles).  The backup
storage configuration is preserved. -/
def mem_reset (m : GbaMemory) : GbaMemory :=
  { m with bios := fun _ => byteOf 0, rom := fun _ => byteOf 0, rom_size := 0 }

/-- Modelled from the spec: `io_init` resets the I/O registers; KEYINPUT is
active-low, so all ten key bits start released (set). -/
def io_init : IoRegs :=
  { keyinput := ⟨true, true, true, true, true, true, true, true, true, true⟩
    keypad_irq_line := false }

/-- `gba_reset` (gba.c:37-51): reinitializes the scheduler, the memory and
the I/O (the PPU, APU, CPU core and GPIO are outside the modelled state) and
clears the `started` flag. -/
def gba_reset (g : Gba) : Gba :=
  let g1 := sched_init (sched_cleanup g)
  let g2 := { g1 with memory := mem_reset g1.memory, ioregs := io_init }
  { g2 with started := false }

/-- Modelled from the spec: `db_lookup_game` matches the ROM header against
the game database to infer backup type and RTC presence; the database
contents are not given by the spec, so the lookup is modelled as finding no
entry (no state change). -/
def db_lookup_game (g : Gba) : Gba := g

/-- Modelled from the spec: `mem_backup_storage_detect` auto-detects the
backup type from the loaded ROM; the detection heuristics are not given by
the spec, so it is modelled as detecting nothing. -/
def mem_backup_storage_detect (g : Gba) : Gba := g

/-- Modelled from the spec: `mem_backup_storage_init` allocates fresh (zero)
backup storage of the configured type's size. -/
def mem_backup_storage_init (g : Gba) : Gba :=
  { g with memory := { g.memory with backup_storage_data := fun _ => byteOf 0 } }

/-- Modelled from the spec: `io_scan_keypad_irq` re-evaluates the keypad
interrupt condition from KEYINPUT; the KEYCNT matching condition is not
detailed by the spec, so the line is modelled as a function of the key bits
only (any key held, i.e. any active-low bit clear).  It does not modify
KEYINPUT. -/
def io_scan_keypad_irq (g : Gba) : Gba :=
  { g with ioregs :=
      { g.ioregs with keypad_irq_line :=
          !(g.ioregs.keyinput.a && g.ioregs.keyinput.b && g.ioregs.keyinput.l &&
            g.ioregs.keyinput.r && g.ioregs.keyinput.up && g.ioregs.keyinput.down &&
            g.ioregs.keyinput.left && g.ioregs.keyinput.right &&
            g.ioregs.keyinput.start && g.ioregs.keyinput.select) } }

/-- Message type tags (`enum message_type`). -/
inductive MessageKind
  | exit | load_bios | load_rom | load_backup | backup_kind | reset | run
  | pause | keyinput | quickload | quicksave | audio_resample_freq
  | color_correction | rtc
deriving DecidableEq

/-- A message record.  Heap payloads (`struct message_data`) carry their byte
buffer, its size, and whether a cleanup callback is attached. -/
inductive Message
  | exit
  | load_bios (data : Nat → Byte) (size : Nat) (cleanup : Bool)
  | load_rom (data : Nat → Byte) (size : Nat) (cleanup : Bool)
  | load_backup (data : Nat → Byte) (size : Nat) (cleanup : Bool)
  | backup_kind (kind : BackupKind)
  | reset
  | run (speed : Nat)
  | pause
  | keyinput (key : Key) (pressed : Bool)
  | quickload (cleanup : Bool)
  | quicksave (cleanup : Bool)
  | audio_resample_freq (freq : Nat)
  | color_correction (enabled : Bool)
  | rtc (state : DeviceState)

/-- The tag of a message. -/
def Message.kind : Message → MessageKind
  | .exit => .exit
  | .load_bios _ _ _ => .load_bios
  | .load_rom _ _ _ => .load_rom
  | .load_backup _ _ _ => .load_backup
  | .backup_kind _ => .backup_kind
  | .reset => .reset
  | .run _ => .run
  | .pause => .pause
  | .keyinput _ _ => .keyinput
  | .quickload _ => .quickload
  | .quicksave _ => .quicksave
  | .audio_resample_freq _ => .audio_resample_freq
  | .color_correction _ => .color_correction
  | .rtc _ => .rtc

/-- Whether the message carries a cleanup callback. -/
def Message.hasCleanup : Message → Bool
  | .load_bios _ _ c => c
  | .load_rom _ _ c => c
  | .load_backup _ _ c => c
  | .quickload c => c
  | .quicksave c => c
  | _ => false

/-- Whether the message is `MESSAGE_EXIT`. -/
def Message.isExit : Message → Bool
  | .exit => true
  | _ => false

/-- Observable actions of one `gba_run` loop iteration, in order: execution
of a message's switch case, invocation of a cleanup callback, the `free` of
the queue buffer, a scheduler run, and the `return` from `gba_run`. -/
inductive Event
  | exec (k : MessageKind)
  | cleanup (k : MessageKind)
  | free
  | schedRun (n : Nat)
  | ret
deriving DecidableEq

/-- Events are message events iff they are executions or cleanups. -/
def Event.isMsgEvent : Event → Bool
  | .exec _ => true
  | .cleanup _ => true
  | _ => false

/-- The events produced by executing one (non-exit) message case. -/
def msgEvents (m : Message) : List Event :=
  Event.exec m.kind :: (if m.hasCleanup then [Event.cleanup m.kind] else [])

/-- The state transformation of one message case of the `switch` in
`gba_run` (gba.c:84-251).  `MESSAGE_EXIT` returns from `gba_run` and is
handled by `gba_drain`; `MESSAGE_QUICKLOAD`/`MESSAGE_QUICKSAVE` perform file
I/O, which is outside the modelled state.  The wall-clock variables of
`MESSAGE_RUN` (`time_per_frame`, `accumulated_time`) are locals of
`gba_run`, not emulator state. -/
def applyMessage (g : Gba) (m : Message) : Gba :=
  match m with
  | .exit => g
  | .load_bios data size _ =>
      let bios2 : Nat → Byte := fun i =>
        if i < min size BIOS_MASK then data i
        else if i < BIOS_MASK then byteOf 0
        else g.memory.bios i
      { g with memory := { g.memory with bios := bios2 } }
  | .load_rom data size _ =>
      let rom2 : Nat → Byte := fun i =>
        if i < min size CART_SIZE then data i
        else if i < CART_SIZE then byteOf 0
        else g.memory.rom i
      db_lookup_game
        { g with memory := { g.memory with rom := rom2, rom_size := min size CART_SIZE } }
  | .load_backup data size _ =>
      let sz := backup_storage_sizes g.memory.backup_storage_type
      let bk2 : Nat → Byte := fun i =>
        if i < min size sz then data i
        else if i < sz then byteOf 0
        else g.memory.backup_storage_data i
      { g with memory := { g.memory with backup_storage_data := bk2 } }
  | .backup_kind kind =>
      if g.started then g
      else
        let g2 : Gba :=
          if kind = .auto_detect then
            mem_backup_storage_detect g
          else
            let mem2 := { g.memory with
              backup_storage_type := kind, backup_storage_source := BackupSource.manual }
            { g with memory := mem2 }
        mem_backup_storage_init g2
  | .reset => gba_reset g
  | .run speed => { g with started := true, state := .run, speed := speed }
  | .pause => { g with state := .pause }
  | .keyinput key pressed =>
      io_scan_keypad_irq
        { g with ioregs := { g.ioregs with keyinput :=
            match key with
            | .a => { g.ioregs.keyinput with a := !pressed }
            | .b => { g.ioregs.keyinput with b := !pressed }
            | .l => { g.ioregs.keyinput with l := !pressed }
            | .r => { g.ioregs.keyinput with r := !pressed }
            | .up => { g.ioregs.keyinput with up := !pressed }
            | .down => { g.ioregs.keyinput with down := !pressed }
            | .left => { g.ioregs.keyinput with left := !pressed }
            | .right => { g.ioregs.keyinput with right := !pressed }
            | .start => { g.ioregs.keyinput with start := !pressed }
            | .select => { g.ioregs.keyinput with select := !pressed } } }
  | .quickload _ => g
  | .quicksave _ => g
  | .audio_resample_freq freq => { g with resample_frequency := freq }
  | .color_correction enabled => { g with color_correction := enabled }
  | .rtc st =>
      if g.started then g
      else
        match st with
        | .auto_detect => { g with rtc_auto_detect := true, rtc_enabled := false }
        | .enabled => { g with rtc_auto_detect := false, rtc_enabled := true }
        | .disabled => { g with rtc_auto_detect := false, rtc_enabled := false }

/-- Outcome of draining the message queue: either `MESSAGE_EXIT` was reached
(`gba_run` returns) or the whole batch was consumed. -/
inductive Outcome
  | exited
  | completed
deriving DecidableEq

/-- The `while (mqueue->length)` drain loop of `gba_run` (gba.c:83-255):
processes the queued messages in FIFO order; on `MESSAGE_EXIT` it returns
from `gba_run` immediately, leaving the remaining messages unprocessed. -/
def gba_drain (g : Gba) : List Message → Gba × List Event × Outcome
  | [] => (g, [], .completed)
  | m :: rest =>
      if m.isExit then
        (g, [Event.ret], .exited)
      else
        let r := gba_drain (applyMessage g m) rest
        (r.1, msgEvents m ++ r.2.1, r.2.2)

/-- One iteration of the outer `while (true)` loop of `gba_run`
(gba.c:75-284): drain the queue (returning on `MESSAGE_EXIT` before the
queue buffer is freed), free the queue buffer, then run the scheduler for
`CYCLES_PER_FRAME` cycles iff the state is `GBA_STATE_RUN`.  The wall-clock
frame pacing (gba.c:265-283) touches no emulator state and is not modelled.
The returned boolean tells whether `gba_run` returned in this iteration. -/
def gba_run_iter (g : Gba) (msgs : List Message) : Gba × List Event × Bool :=
  match gba_drain g msgs with
  | (g1, evs, .exited) => (g1, evs, true)
  | (g1, evs, .completed) =>
      if g1.state = .run then
        (sched_run_for g1 CYCLES_PER_FRAME,
          evs ++ [Event.free] ++ [Event.schedRun CYCLES_PER_FRAME], false)
      else
        (g1, evs ++ [Event.free], false)

/-- The drain as the spec words it (§4.8 step 1): execute all commands of
the batch in FIFO push order.  This is the specification side of the C7/C9
refinement theorems, to be compared with `gba_drain`. -/
def specFifoDrain (g : Gba) : List Message → Gba × List Event
  | [] => (g, [])
  | m :: rest =>
      let r := specFifoDrain (applyMessage g m) rest
      (r.1, msgEvents m ++ r.2)

/-- A fresh emulator state, all fields zeroed as by `gba_init`. -/
def gbaFresh : Gba :=
  { started := false
    state := .pause
    speed := 0
    color_correction := false
    resample_frequency := 0
    rtc_enabled := false
    rtc_auto_detect := false
    memory :=
      { bios := fun _ => byteOf 0
        rom := fun _ => byteOf 0
        rom_size := 0
        backup_storage_type := .none
        backup_storage_source := .auto
        backup_storage_data := fun _ => byteOf 0 }
    ioregs := io_init
    scheduler_cycles := 0 }

/-- A concrete running emulator state. -/
def gbaStarted : Gba := { gbaFresh with started := true, state := .run, speed := 1 }

/-- Draining a batch without `MESSAGE_EXIT` executes every message in FIFO
push order and consumes the whole batch. -/
theorem gba_drain_no_exit (g : Gba) (msgs : List Message)
    (h : ∀ m ∈ msgs, m.isExit = false) :
    gba_drain g msgs =
      ((specFifoDrain g msgs).1, (specFifoDrain g msgs).2, Outcome.completed) := by
  induction msgs generalizing g with
  | nil => rfl
  | cons m rest ih =>
      have hm : m.isExit = false := h m (List.mem_cons_self m rest)
      have hrest : ∀ m2 ∈ rest, m2.isExit = false := fun m2 hm2 =>
        h m2 (List.mem_cons_of_mem m hm2)
      simp [gba_drain, specFifoDrain, hm, ih (applyMessage g m) hrest]

/-- Draining a batch stops at the first `MESSAGE_EXIT`: the result only
depends on the prefix before it. -/
theorem gba_drain_exit (g : Gba) (pre post : List Message)
    (h : ∀ m ∈ pre, m.isExit = false) :
    gba_drain g (pre ++ Message.exit :: post) =
      ((specFifoDrain g pre).1, (specFifoDrain g pre).2 ++ [Event.ret], Outcome.exited) := by
  induction pre generalizing g with
  | nil => rfl
  | cons m rest ih =>
      have hm : m.isExit = false := h m (List.mem_cons_self m rest)
      have hrest : ∀ m2 ∈ rest, m2.isExit = false := fun m2 hm2 =>
        h m2 (List.mem_cons_of_mem m hm2)
      simp [gba_drain, specFifoDrain, hm, ih (applyMessage g m) hrest]

/-- The spec-side drain only emits execution and cleanup events. -/
theorem specFifoDrain_events (g : Gba) (msgs : List Message) :
    ∀ e ∈ (specFifoDrain g msgs).2, e.isMsgEvent = true := by
  induction msgs generalizing g with
  | nil =>
      intro e he
      simp [specFifoDrain] at he
  | cons m rest ih =>
      intro e he
      simp only [specFifoDrain, msgEvents, List.cons_append] at he
      rcases List.mem_cons.mp he with h | h
      · subst h
        rfl
      · rcases List.mem_append.mp h with h | h
        · revert h
          split
          · intro h
            simp at h
            subst h
            rfl
          · intro h
            simp at h
        · exact ih (applyMessage g m) e h

/-- C6: once emulation has started, `MESSAGE_BACKUP_TYPE` and `MESSAGE_RTC`
are ignored: they leave the whole emulator state unchanged (in particular
the backup type, its source, and the two RTC flags). -/
theorem c6_ignored_after_start (g : Gba) (kind : BackupKind) (st : DeviceState)
    (h : g.started = true) :
    applyMessage g (.backup_kind kind) = g ∧ applyMessage g (.rtc st) = g := by
  constructor <;> simp [applyMessage, h]

/-- Witness for C6 on a concrete started state. -/
theorem c6_witness :
    applyMessage gbaStarted (.backup_kind .sram) = gbaStarted ∧
    applyMessage gbaStarted (.rtc .enabled) = gbaStarted :=
  c6_ignored_after_start gbaStarted .sram .enabled rfl

/-- C8: `MESSAGE_KEYINPUT` stores the negation of `pressed` into the
KEYINPUT bit of the given key (active-low: the bit is 0 when the key is
pressed) and leaves the other nine key bits unchanged. -/
theorem c8_keyinput_active_low (g : Gba) (key : Key) (pressed : Bool) :
    keyBit (applyMessage g (.keyinput key pressed)).ioregs.keyinput key = !pressed ∧
    ∀ other, other ≠ key →
      keyBit (applyMessage g (.keyinput key pressed)).ioregs.keyinput other =
        keyBit g.ioregs.keyinput other := by
  constructor
  · cases key <;> simp [applyMessage, io_scan_keypad_irq, keyBit]
  · intro other hne
    cases key <;> cases other <;>
      simp_all [applyMessage, io_scan_keypad_irq, keyBit]

/-- Witness for C8: pressing A on a concrete state leaves the B bit alone. -/
theorem c8_witness :
    keyBit (applyMessage gbaStarted (.keyinput .a true)).ioregs.keyinput .b =
      keyBit gbaStarted.ioregs.keyinput .b :=
  (c8_keyinput_active_low gbaStarted .a true).2 .b (by decide)

/-- C7 (amended): for every batch that contains no `MESSAGE_EXIT`, one
`gba_run` iteration executes all queued commands in FIFO push order before
any emulation, then frees the queue buffer, and then runs the scheduler for
exactly `CYCLES_PER_FRAME` cycles iff the drained state is `GBA_STATE_RUN`
(after a `MESSAGE_PAUSE`, no cycles are run); a batch containing
`MESSAGE_EXIT` instead makes `gba_run` return at the exit without emulating
(see the C9 theorem). -/
theorem c7_fifo_drain_then_frame (g : Gba) (msgs : List Message)
    (h : ∀ m ∈ msgs, m.isExit = false) :
    gba_run_iter g msgs =
      ((if (specFifoDrain g msgs).1.state = .run then
          sched_run_for (specFifoDrain g msgs).1 CYCLES_PER_FRAME
        else (specFifoDrain g msgs).1),
       (specFifoDrain g msgs).2 ++ [Event.free] ++
         (if (specFifoDrain g msgs).1.state = .run then
           [Event.schedRun CYCLES_PER_FRAME]
          else []),
       false) ∧
    (gba_run_iter g msgs).1.scheduler_cycles =
      (specFifoDrain g msgs).1.scheduler_cycles +
        (if (specFifoDrain g msgs).1.state = .run then CYCLES_PER_FRAME else 0) := by
  have hd := gba_drain_no_exit g msgs h
  have h1 : gba_run_iter g msgs =
      ((if (specFifoDrain g msgs).1.state = .run then
          sched_run_for (specFifoDrain g msgs).1 CYCLES_PER_FRAME
        else (specFifoDrain g msgs).1),
       (specFifoDrain g msgs).2 ++ [Event.free] ++
         (if (specFifoDrain g msgs).1.state = .run then
           [Event.schedRun CYCLES_PER_FRAME]
          else []),
       false) := by
    unfold gba_run_iter
    rw [hd]
    by_cases hrun : (specFifoDrain g msgs).1.state = .run <;> simp [hrun]
  refine ⟨h1, ?_⟩
  rw [h1]
  by_cases hrun : (specFifoDrain g msgs).1.state = .run <;> simp [hrun, sched_run_for]

/-- Witness for the amended C7 on the concrete batch `[pause]`. -/
theorem c7_witness :
    gba_run_iter gbaStarted [Message.pause] =
      ((if (specFifoDrain gbaStarted [Message.pause]).1.state = .run then
          sched_run_for (specFifoDrain gbaStarted [Message.pause]).1 CYCLES_PER_FRAME
        else (specFifoDrain gbaStarted [Message.pause]).1),
       (specFifoDrain gbaStarted [Message.pause]).2 ++ [Event.free] ++
         (if (specFifoDrain gbaStarted [Message.pause]).1.state = .run then
           [Event.schedRun CYCLES_PER_FRAME]
          else []),
       false) ∧
    (gba_run_iter gbaStarted [Message.pause]).1.scheduler_cycles =
      (specFifoDrain gbaStarted [Message.pause]).1.scheduler_cycles +
        (if (specFifoDrain gbaStarted [Message.pause]).1.state = .run then
          CYCLES_PER_FRAME
         else 0) :=
  c7_fifo_drain_then_frame gbaStarted [Message.pause] (by decide)

/-- C7 fails as literally stated when the batch contains `MESSAGE_EXIT`:
with the batch `[exit, pause]` from a running state, the pause command is
never executed, and the scheduler does not run even though the state is
still `GBA_STATE_RUN` — so neither are all queued commands executed, nor is
the scheduler run iff the state is `Run`. -/
theorem c7_counterexample :
    (gba_run_iter gbaStarted [Message.exit, Message.pause]).1.state = GbaState.run ∧
    Event.exec MessageKind.pause ∉
      (gba_run_iter gbaStarted [Message.exit, Message.pause]).2.1 ∧
    Event.schedRun CYCLES_PER_FRAME ∉
      (gba_run_iter gbaStarted [Message.exit, Message.pause]).2.1 :=
  ⟨rfl, by decide, by decide⟩

/-- C9: when the batch contains `MESSAGE_EXIT`, `gba_run` returns at the
exit: the commands before it are executed in order, the iteration trace is
determined by that prefix alone (so the commands after the exit are never
executed and their cleanup callbacks never invoked), the queue buffer is not
freed, and no emulation happens. -/
theorem c9_exit_stops_processing (g : Gba) (pre post : List Message)
    (h : ∀ m ∈ pre, m.isExit = false) :
    gba_run_iter g (pre ++ Message.exit :: post) =
      ((specFifoDrain g pre).1, (specFifoDrain g pre).2 ++ [Event.ret], true) ∧
    Event.free ∉ (gba_run_iter g (pre ++ Message.exit :: post)).2.1 ∧
    ∀ n, Event.schedRun n ∉ (gba_run_iter g (pre ++ Message.exit :: post)).2.1 := by
  have hd := gba_drain_exit g pre post h
  have h1 : gba_run_iter g (pre ++ Message.exit :: post) =
      ((specFifoDrain g pre).1, (specFifoDrain g pre).2 ++ [Event.ret], true) := by
    unfold gba_run_iter
    rw [hd]
  refine ⟨h1, ?_, ?_⟩
  · rw [h1]
    intro hmem
    rcases List.mem_append.mp hmem with hmem | hmem
    · exact absurd (specFifoDrain_events g pre _ hmem) (by decide)
    · simp at hmem
  · intro n
    rw [h1]
    intro hmem
    rcases List.mem_append.mp hmem with hmem | hmem
    · exact absurd (specFifoDrain_events g pre _ hmem) (by simp [Event.isMsgEvent])
    · simp at hmem

/-- Witness for C9 on the concrete batch `[pause, exit, pause]`. -/
theorem c9_witness :
    gba_run_iter gbaStarted ([Message.pause] ++ Message.exit :: [Message.pause]) =
      ((specFifoDrain gbaStarted [Message.pause]).1,
        (specFifoDrain gbaStarted [Message.pause]).2 ++ [Event.ret], true) ∧
    Event.free ∉
      (gba_run_iter gbaStarted ([Message.pause] ++ Message.exit :: [Message.pause])).2.1 ∧
    ∀ n, Event.schedRun n ∉
      (gba_run_iter gbaStarted ([Message.pause] ++ Message.exit :: [Message.pause])).2.1 :=
  c9_exit_stops_processing gbaStarted [Message.pause] [Message.pause] (by decide)

/-- C10: `gba_reset` clears the `started` flag, so a `MESSAGE_BACKUP_TYPE`
or `MESSAGE_RTC` drained after a `MESSAGE_RESET` is applied again even if
emulation had previously started. -/
theorem c10_reset_clears_started (g : Gba) (kind : BackupKind)
    (hk : kind ≠ .auto_detect) :
    (gba_reset g).started = false ∧
    (gba_drain g [Message.reset, Message.backup_kind kind]).1.memory.backup_storage_type =
      kind ∧
    (gba_drain g [Message.reset, Message.backup_kind kind]).1.memory.backup_storage_source =
      BackupSource.manual ∧
    (gba_drain g [Message.reset, Message.rtc .enabled]).1.rtc_enabled = true := by
  refine ⟨rfl, ?_, ?_, ?_⟩ <;>
    simp [gba_drain, applyMessage, gba_reset, sched_init, sched_cleanup, mem_reset,
      io_init, mem_backup_storage_init, Message.isExit, msgEvents, hk]

/-- Witness for C10 on a concrete started state and the SRAM backup type. -/
theorem c10_witness :
    (gba_reset gbaStarted).started = false ∧
    (gba_drain gbaStarted
        [Message.reset, Message.backup_kind .sram]).1.memory.backup_storage_type =
      BackupKind.sram ∧
    (gba_drain gbaStarted
        [Message.reset, Message.backup_kind .sram]).1.memory.backup_storage_source =
      BackupSource.manual ∧
    (gba_drain gbaStarted [Message.reset, Message.rtc .enabled]).1.rtc_enabled = true :=
  c10_reset_clears_started gbaStarted .sram (by decide)

/-- C5: evaluation of the code at the failing input.  Loading a full 16,384
byte BIOS image copies only `min(size, BIOS_MASK) = 16,383` bytes (and the
preceding memset also clears only `BIOS_MASK` bytes), so the last payload
byte (`0xAB` at offset 16,383) is never copied: the BIOS byte at offset
16,383 keeps its previous value 0, while offset 16,382 does receive the
payload byte. -/
theorem c5_load_bios_drops_last_byte :
    (applyMessage gbaFresh (.load_bios (fun _ => byteOf 0xAB) 16384 false)).memory.bios
        16383 = byteOf 0 ∧
    (applyMessage gbaFresh (.load_bios (fun _ => byteOf 0xAB) 16384 false)).memory.bios
        16382 = byteOf 0xAB ∧
    byteOf 0 ≠ byteOf 0xAB :=
  ⟨by decide, by decide, by decide⟩

end Hades
